import Mathlib

/-!
Verification of the nectar Telnet codec.

Shallow embedding of the `nectar` Telnet codec (files `src/constants.rs`,
`src/option.rs`, `src/linemode.rs`, `src/subnegotiation.rs`, `src/env.rs`,
`src/event.rs`, `src/lib.rs`) and proofs about it.

Modelling conventions:
* A Rust `u8` is a `Nat` holding a value below 256; the codec only compares,
  moves and masks bytes, so no arithmetic overflow arises.
* `BytesMut` / `Vec<u8>` buffers are `List Nat`; `BytesMut::advance(n)` is
  `List.drop n`.
* A Rust `String` is represented by its UTF-8 byte sequence (`List Nat`).
* Rust functions that can panic (index out of bounds, `unreachable!`) return
  an `Outcome`; `Outcome.panicked` marks the panic.
* The crate is compiled without the optional `unicode` cargo feature, so the
  `cfg(feature = "unicode")` items of `src/lib.rs` are absent.
-/

namespace Nectar

/-- Result of running a piece of Rust code that may panic. -/
inductive Outcome (α : Type) where
  | panicked : Outcome α
  | ret : α → Outcome α
deriving DecidableEq

/-! ## Constants (src/constants.rs) -/

def ECHO : Nat := 1
def GA : Nat := 249
def SGA : Nat := 3
def IAC : Nat := 255
def SB : Nat := 250
def NAWS : Nat := 31
def SE : Nat := 240
def NOP : Nat := 241
def LINEMODE : Nat := 34
def MODE : Nat := 1
def LINEMODE_SLC : Nat := 3
def LINEMODE_FORWARD_MASK : Nat := 2
def WILL : Nat := 251
def WONT : Nat := 252
def DO : Nat := 253
def DONT : Nat := 254
def TELOPT_EOR : Nat := 25
def MSSP : Nat := 70
def MCCP2 : Nat := 86
def MSP : Nat := 90
def MXP : Nat := 91
def GMCP : Nat := 201
def CHARSET : Nat := 42
def CHARSET_REQUEST : Nat := 1
def CHARSET_ACCEPTED : Nat := 2
def CHARSET_REJECTED : Nat := 3
def CHARSET_TTABLE_REJECTED : Nat := 5
def SLC_LEVELBITS : Nat := 3
def SLC_ACK : Nat := 128
def SLC_FLUSHIN : Nat := 64
def SLC_FLUSHOUT : Nat := 32
def SLC_SYNCH : Nat := 1
def SLC_BRK : Nat := 2
def SLC_IP : Nat := 3
def SLC_AO : Nat := 4
def SLC_AYT : Nat := 5
def SLC_EOR : Nat := 6
def SLC_ABORT : Nat := 7
def SLC_EOF : Nat := 8
def SLC_SUSP : Nat := 9
def SLC_EC : Nat := 10
def SLC_EL : Nat := 11
def SLC_EW : Nat := 12
def SLC_RP : Nat := 13
def SLC_LNEXT : Nat := 14
def SLC_XON : Nat := 15
def SLC_XOFF : Nat := 16
def SLC_FORW1 : Nat := 17
def SLC_FORW2 : Nat := 18
def SLC_MCL : Nat := 19
def SLC_MCR : Nat := 20
def SLC_MCWL : Nat := 21
def SLC_MCWR : Nat := 22
def SLC_MCUB : Nat := 23
def SLC_MCUF : Nat := 24
def SLC_LP : Nat := 25
def SLC_XONC : Nat := 26
def SLC_XOFFC : Nat := 27
def SLC_EXIT : Nat := 28
def SLC_SUSPC : Nat := 29
def SLC_DSUSPC : Nat := 30
def SLC_REPRINT : Nat := 31
def SLC_ABORTC : Nat := 32
def SLC_EOFCHAR : Nat := 33
def SLC_SUSPCHAR : Nat := 34
def SLC_BRKC : Nat := 35
def SLC_EORC : Nat := 36
def ENVIRON : Nat := 39
def ENV_IS : Nat := 0
def ENV_SEND : Nat := 1
def ENV_INFO : Nat := 2
def ENV_VAR : Nat := 0
def ENV_VALUE : Nat := 1
def ENV_ESC : Nat := 2
def ENV_USERVAR : Nat := 3

/-- UTF-8 bytes of the string constant `ENV_USER` (`"USER"`). -/
def ENV_USER : List Nat := [85, 83, 69, 82]
/-- UTF-8 bytes of the string constant `ENV_JOB` (`"JOB"`). -/
def ENV_JOB : List Nat := [74, 79, 66]
/-- UTF-8 bytes of the string constant `ENV_ACCT` (`"ACCT"`). -/
def ENV_ACCT : List Nat := [65, 67, 67, 84]
/-- UTF-8 bytes of the string constant `ENV_PRINTER` (`"PRINTER"`). -/
def ENV_PRINTER : List Nat := [80, 82, 73, 78, 84, 69, 82]
/-- UTF-8 bytes of the string constant `ENV_SYSTEMTYPE` (`"SYSTEMTYPE"`). -/
def ENV_SYSTEMTYPE : List Nat := [83, 89, 83, 84, 69, 77, 84, 89, 80, 69]
/-- UTF-8 bytes of the string constant `ENV_DISPLAY` (`"DISPLAY"`). -/
def ENV_DISPLAY : List Nat := [68, 73, 83, 80, 76, 65, 89]

/-! ## UTF-8 helpers

Models of `std::str::from_utf8` (validity check) and
`String::from_utf8_lossy` over byte lists, following the byte-range table of
`core::str::validations` and the "substitution of maximal subparts" policy of
the lossy conversion (an invalid prefix of k valid bytes is replaced by one
U+FFFD, encoded as the three bytes EF BF BD). -/

/-- Is `b` a UTF-8 continuation byte (0x80..=0xBF)? -/
def utf8Cont (b : Nat) : Bool := 128 ≤ b && b ≤ 191

/-- The UTF-8 encoding of U+FFFD REPLACEMENT CHARACTER. -/
def utf8Replacement : List Nat := [239, 191, 189]

/-- Is `c` a valid second byte for the leading byte `b` of a multi-byte
UTF-8 sequence? -/
def utf8SecondOk (b c : Nat) : Bool :=
  if b = 224 then 160 ≤ c && c ≤ 191
  else if b = 237 then 128 ≤ c && c ≤ 159
  else if b = 240 then 144 ≤ c && c ≤ 191
  else if b = 244 then 128 ≤ c && c ≤ 143
  else utf8Cont c

/-- Model of the `std::str::from_utf8` validity check. -/
def validUtf8 : List Nat → Bool
  | [] => true
  | b :: rest =>
    if b ≤ 127 then validUtf8 rest
    else if 194 ≤ b && b ≤ 223 then
      match rest with
      | [] => false
      | c :: r => utf8Cont c && validUtf8 r
    else if 224 ≤ b && b ≤ 239 then
      match rest with
      | [] => false
      | c :: r =>
        utf8SecondOk b c &&
          match r with
          | [] => false
          | d :: r2 => utf8Cont d && validUtf8 r2
    else if 240 ≤ b && b ≤ 244 then
      match rest with
      | [] => false
      | c :: r =>
        utf8SecondOk b c &&
          match r with
          | [] => false
          | d :: r2 =>
            utf8Cont d &&
              match r2 with
              | [] => false
              | e :: r3 => utf8Cont e && validUtf8 r3
    else false
termination_by l => l.length
decreasing_by all_goals simp <;> omega

/-- Model of `String::from_utf8_lossy` over the byte sequence of the string. -/
def fromUtf8Lossy : List Nat → List Nat
  | [] => []
  | b :: rest =>
    if b ≤ 127 then b :: fromUtf8Lossy rest
    else if 194 ≤ b && b ≤ 223 then
      match rest with
      | [] => utf8Replacement
      | c :: r =>
        if utf8Cont c then b :: c :: fromUtf8Lossy r
        else utf8Replacement ++ fromUtf8Lossy (c :: r)
    else if 224 ≤ b && b ≤ 239 then
      match rest with
      | [] => utf8Replacement
      | c :: r =>
        if utf8SecondOk b c then
          match r with
          | [] => utf8Replacement
          | d :: r2 =>
            if utf8Cont d then b :: c :: d :: fromUtf8Lossy r2
            else utf8Replacement ++ fromUtf8Lossy (d :: r2)
        else utf8Replacement ++ fromUtf8Lossy (c :: r)
    else if 240 ≤ b && b ≤ 244 then
      match rest with
      | [] => utf8Replacement
      | c :: r =>
        if utf8SecondOk b c then
          match r with
          | [] => utf8Replacement
          | d :: r2 =>
            if utf8Cont d then
              match r2 with
              | [] => utf8Replacement
              | e :: r3 =>
                if utf8Cont e then b :: c :: d :: e :: fromUtf8Lossy r3
                else utf8Replacement ++ fromUtf8Lossy (e :: r3)
            else utf8Replacement ++ fromUtf8Lossy (d :: r2)
        else utf8Replacement ++ fromUtf8Lossy (c :: r)
    else utf8Replacement ++ fromUtf8Lossy rest
termination_by l => l.length
decreasing_by all_goals simp <;> omega

/-! ## Options (src/option.rs) -/

/-- Model of `TelnetOption` (src/option.rs). -/
inductive TelnetOption where
  | Echo
  | GoAhead
  | SuppressGoAhead
  | EndOfRecord
  | Charset
  | MCCP2
  | GMCP
  | MSSP
  | MSP
  | MXP
  | Unknown (byte : Nat)
deriving DecidableEq

/-- Model of `impl From<u8> for TelnetOption`. -/
def TelnetOption.fromU8 (byte : Nat) : TelnetOption :=
  if byte = ECHO then .Echo
  else if byte = GA then .GoAhead
  else if byte = SGA then .SuppressGoAhead
  else if byte = TELOPT_EOR then .EndOfRecord
  else if byte = CHARSET then .Charset
  else if byte = Nectar.MCCP2 then .MCCP2
  else if byte = Nectar.GMCP then .GMCP
  else if byte = Nectar.MSSP then .MSSP
  else if byte = Nectar.MSP then .MSP
  else if byte = Nectar.MXP then .MXP
  else .Unknown byte

/-- Model of `impl From<TelnetOption> for u8`. -/
def TelnetOption.toU8 : TelnetOption → Nat
  | .Echo => ECHO
  | .GoAhead => GA
  | .SuppressGoAhead => SGA
  | .EndOfRecord => TELOPT_EOR
  | .Charset => CHARSET
  | .MCCP2 => Nectar.MCCP2
  | .GMCP => Nectar.GMCP
  | .MSSP => Nectar.MSSP
  | .MSP => Nectar.MSP
  | .MXP => Nectar.MXP
  | .Unknown byte => byte

/-! ## Linemode model (src/linemode.rs) -/

/-- Model of `Level` (src/linemode.rs): support level of an SLC function. -/
inductive Level where
  | NoSupport
  | CantChange
  | Value
  | Default
deriving DecidableEq

/-- Model of `impl From<u8> for Level`: the input is masked with `SLC_LEVELBITS`.
The final arm is the source's `unreachable!` branch: `value & 3` is always
below 4, so it can never be taken; it is mapped to an arbitrary value. -/
def Level.fromU8 (value : Nat) : Level :=
  match value.land SLC_LEVELBITS with
  | 0 => .NoSupport
  | 1 => .CantChange
  | 2 => .Value
  | 3 => .Default
  | _ => .NoSupport

/-- Model of `impl Into<u8> for Level`. -/
def Level.toU8 : Level → Nat
  | .NoSupport => 0
  | .CantChange => 1
  | .Value => 2
  | .Default => 3

/-- Model of `Modifiers` (src/linemode.rs). -/
structure Modifiers where
  level : Level
  ack : Bool
  flush_in : Bool
  flush_out : Bool
deriving DecidableEq

/-- Model of `impl From<u8> for Modifiers`. -/
def Modifiers.fromU8 (value : Nat) : Modifiers where
  level := Level.fromU8 value
  ack := value.land SLC_ACK ≠ 0
  flush_in := value.land SLC_FLUSHIN ≠ 0
  flush_out := value.land SLC_FLUSHOUT ≠ 0

/-- Model of `impl Into<u8> for Modifiers`. -/
def Modifiers.toU8 (m : Modifiers) : Nat :=
  let value := m.level.toU8
  let value := if m.ack then value ||| SLC_ACK else value
  let value := if m.flush_in then value ||| SLC_FLUSHIN else value
  if m.flush_out then value ||| SLC_FLUSHOUT else value

/-- Model of `SlcFunction` (src/linemode.rs). -/
inductive SlcFunction where
  | Synch | Brk | Ip | Ao | Ayt | Eor | Abort | Eof | Susp
  | Ec | El | Ew | Rp | Lnext | Xon | Xoff | Forw1 | Forw2
  | Mcl | Mcr | Mcwl | Mcwr | Mcub | Mcuf | Lp | Xonc | Xoffc
  | Exit | Suspc | Dsuspc | Reprint | Abortc | Eofchar | Suspchar
  | Brkc | Eorc
  | Unknown (value : Nat)
deriving DecidableEq

/-- Model of `impl From<u8> for SlcFunction`. -/
def SlcFunction.fromU8 (value : Nat) : SlcFunction :=
  match value with
  | 1 => .Synch | 2 => .Brk | 3 => .Ip | 4 => .Ao | 5 => .Ayt
  | 6 => .Eor | 7 => .Abort | 8 => .Eof | 9 => .Susp | 10 => .Ec
  | 11 => .El | 12 => .Ew | 13 => .Rp | 14 => .Lnext | 15 => .Xon
  | 16 => .Xoff | 17 => .Forw1 | 18 => .Forw2 | 19 => .Mcl | 20 => .Mcr
  | 21 => .Mcwl | 22 => .Mcwr | 23 => .Mcub | 24 => .Mcuf | 25 => .Lp
  | 26 => .Xonc | 27 => .Xoffc | 28 => .Exit | 29 => .Suspc
  | 30 => .Dsuspc | 31 => .Reprint | 32 => .Abortc | 33 => .Eofchar
  | 34 => .Suspchar | 35 => .Brkc | 36 => .Eorc
  | v => .Unknown v

/-- Model of `impl Into<u8> for SlcFunction`. -/
def SlcFunction.toU8 : SlcFunction → Nat
  | .Synch => SLC_SYNCH | .Brk => SLC_BRK | .Ip => SLC_IP | .Ao => SLC_AO
  | .Ayt => SLC_AYT | .Eor => SLC_EOR | .Abort => SLC_ABORT
  | .Eof => SLC_EOF | .Susp => SLC_SUSP | .Ec => SLC_EC | .El => SLC_EL
  | .Ew => SLC_EW | .Rp => SLC_RP | .Lnext => SLC_LNEXT | .Xon => SLC_XON
  | .Xoff => SLC_XOFF | .Forw1 => SLC_FORW1 | .Forw2 => SLC_FORW2
  | .Mcl => SLC_MCL | .Mcr => SLC_MCR | .Mcwl => SLC_MCWL
  | .Mcwr => SLC_MCWR | .Mcub => SLC_MCUB | .Mcuf => SLC_MCUF
  | .Lp => SLC_LP | .Xonc => SLC_XONC | .Xoffc => SLC_XOFFC
  | .Exit => SLC_EXIT | .Suspc => SLC_SUSPC | .Dsuspc => SLC_DSUSPC
  | .Reprint => SLC_REPRINT | .Abortc => SLC_ABORTC
  | .Eofchar => SLC_EOFCHAR | .Suspchar => SLC_SUSPCHAR
  | .Brkc => SLC_BRKC | .Eorc => SLC_EORC
  | .Unknown value => value

/-- Model of `Dispatch` (src/linemode.rs). -/
structure Dispatch where
  function : SlcFunction
  modifiers : Modifiers
deriving DecidableEq

/-- Model of `impl From<(u8, u8)> for Dispatch`. -/
def Dispatch.fromPair (function modifiers : Nat) : Dispatch where
  function := SlcFunction.fromU8 function
  modifiers := Modifiers.fromU8 modifiers

/-- Modelled from the spec: `ForwardMaskOption` is referenced from
src/lib.rs (`crate::linemode::ForwardMaskOption`) but its declaration is
absent from the provided sources. Spec section 3 defines it as
"`Do(16-byte vector)`, `Dont`, `Will`, `Wont`, `Unknown(byte)` — only `Do`
carries payload". -/
inductive ForwardMaskOption where
  | Do (data : List Nat)
  | Dont
  | Will
  | Wont
  | Unknown (byte : Nat)
deriving DecidableEq

/-- Modelled from the spec: `From<u8> for ForwardMaskOption` (declaration
absent from the provided sources). The negotiation verbs map to the
matching variants (spec section 4.3), anything else to `Unknown`. -/
def ForwardMaskOption.fromU8 (byte : Nat) : ForwardMaskOption :=
  if byte = Nectar.DO then .Do []
  else if byte = DONT then .Dont
  else if byte = Nectar.WILL then .Will
  else if byte = WONT then .Wont
  else .Unknown byte

/-- Modelled from the spec: `Into<u8> for ForwardMaskOption` (declaration
absent from the provided sources); used by `encode_sb` for the nullary
variants. -/
def ForwardMaskOption.toU8 : ForwardMaskOption → Nat
  | .Do _ => Nectar.DO
  | .Dont => DONT
  | .Will => Nectar.WILL
  | .Wont => WONT
  | .Unknown byte => byte

/-- Model of `LineModeOption` (src/subnegotiation.rs). -/
inductive LineModeOption where
  | Mode (mode : Nat)
  | SLC (triples : List (Dispatch × Nat))
  | ForwardMask (option : ForwardMaskOption)
  | Unknown (byte : Nat) (data : List Nat)
deriving DecidableEq

/-! ## Environment model (src/env.rs) -/

/-- Model of `WellKnownVariable` (src/env.rs); the `Unknown` payload is the string's
UTF-8 bytes. -/
inductive WellKnownVariable where
  | User
  | Job
  | Acct
  | Printer
  | SystemType
  | Display
  | Unknown (s : List Nat)
deriving DecidableEq

/-- Model of `impl From<&str> for WellKnownVariable`. -/
def WellKnownVariable.fromBytes (value : List Nat) : WellKnownVariable :=
  if value = ENV_USER then .User
  else if value = ENV_JOB then .Job
  else if value = ENV_ACCT then .Acct
  else if value = ENV_PRINTER then .Printer
  else if value = ENV_SYSTEMTYPE then .SystemType
  else if value = ENV_DISPLAY then .Display
  else .Unknown value

/-- Model of `impl From<WellKnownVariable> for String` (as UTF-8 bytes). -/
def WellKnownVariable.asBytes : WellKnownVariable → List Nat
  | .User => ENV_USER
  | .Job => ENV_JOB
  | .Acct => ENV_ACCT
  | .Printer => ENV_PRINTER
  | .SystemType => ENV_SYSTEMTYPE
  | .Display => ENV_DISPLAY
  | .Unknown data => data

/-- Model of `EnvironmentKind` (src/env.rs). -/
inductive EnvironmentKind where
  | WellKnown (v : Option WellKnownVariable)
  | UserDefined (s : Option (List Nat))
deriving DecidableEq

/-- Model of `EnvironmentKind::as_u8`. -/
def EnvironmentKind.as_u8 : EnvironmentKind → Nat
  | .WellKnown _ => ENV_VAR
  | .UserDefined _ => ENV_USERVAR

/-- Model of `EnvironmentKind::name` (the name as UTF-8 bytes). -/
def EnvironmentKind.name : EnvironmentKind → Option (List Nat)
  | .WellKnown s => s.map WellKnownVariable.asBytes
  | .UserDefined s => s

/-- Model of `EnvironmentOperation` (src/env.rs). -/
inductive EnvironmentOperation where
  | Is (vars : List (EnvironmentKind × Option (List Nat)))
  | Send (vars : List EnvironmentKind)
  | Info (vars : List (EnvironmentKind × Option (List Nat)))
  | Unknown (b : Nat) (buf : List Nat)
deriving DecidableEq

/-- Model of `encode_bytes` (src/env.rs): NEW-ENVIRON escaping. -/
def encode_bytes (buf : List Nat) : List Nat :=
  buf.flatMap fun b =>
    if b = ENV_ESC ∨ b = ENV_VAR ∨ b = ENV_VALUE ∨ b = ENV_USERVAR then
      [ENV_ESC, b]
    else if b = IAC then [IAC, IAC]
    else [b]

/-- Model of `encode_env_vars` (src/env.rs): kinds without a name are skipped by the
`filter_map`. -/
def encode_env_vars (vars : List (EnvironmentKind × Option (List Nat)))
    (buffer : List Nat) : List Nat :=
  vars.foldl
    (fun buf kv =>
      match kv.1.name with
      | none => buf
      | some name =>
        let buf := buf ++ [kv.1.as_u8] ++ encode_bytes name
        match kv.2 with
        | some value => buf ++ [ENV_VALUE] ++ encode_bytes value
        | none => buf)
    buffer

/-- Model of `encode_env_op` (src/env.rs). Note that in the `Send` arm the name bytes
are appended unescaped. -/
def encode_env_op (op : EnvironmentOperation) (buffer : List Nat) : List Nat :=
  match op with
  | .Is vars => encode_env_vars vars (buffer ++ [ENV_IS])
  | .Send vars =>
    vars.foldl
      (fun buf k =>
        match k.name with
        | none => buf
        | some name => buf ++ [k.as_u8] ++ name)
      (buffer ++ [ENV_SEND])
  | .Info vars => encode_env_vars vars (buffer ++ [ENV_INFO])
  | .Unknown b buf => buffer ++ [b] ++ buf

/-! ## Subnegotiation model (src/subnegotiation.rs) -/

/-- Model of `SubnegotiationType` (src/subnegotiation.rs). The `Environment` variant
is constructed by `decode_env` (src/env.rs) and consumed by `encode_sb`
(src/lib.rs); it is missing from the enum declaration in the provided
src/subnegotiation.rs, which would not compile without it, so it is added
here. -/
inductive SubnegotiationType where
  | WindowSize (width height : Nat)
  | CharsetRequest (charsets : List (List Nat))
  | CharsetAccepted (charset : List Nat)
  | CharsetRejected
  | CharsetTTableRejected
  | LineMode (option : LineModeOption)
  | Environment (op : EnvironmentOperation)
  | Unknown (option : TelnetOption) (bytes : List Nat)
deriving DecidableEq

/-- Modelled from the spec: the `SubnegotiationType::len` arm for the
`Environment` variant is absent from the provided src/subnegotiation.rs.
Spec section 4.6 requires the length numbers to "match the encoder's actual
output byte count for each variant"; the encoder's payload for
`Environment(op)` beyond `IAC SB opt ... IAC SE` is `encode_env_op`'s
output, so its byte count is used. -/
def environmentLen (op : EnvironmentOperation) : Nat :=
  (encode_env_op op []).length

/-- Model of `SubnegotiationType::len` (src/subnegotiation.rs): on-wire length of the
subnegotiation data, excluding `IAC SB`, the option byte and `IAC SE`. -/
def SubnegotiationType.len : SubnegotiationType → Nat
  | .WindowSize _ _ => 4
  | .CharsetRequest vec => vec.length + (vec.map List.length).sum + 1
  | .CharsetAccepted charset => charset.length + 1
  | .CharsetRejected => 1
  | .CharsetTTableRejected => 1
  | .LineMode mode =>
    match mode with
    | .SLC triples => triples.length * 3 + 1
    | .Mode _ => 2
    | .ForwardMask (.Do _) => 2 + 16
    | .ForwardMask _ => 2
    | .Unknown _ data => 1 + data.length
  | .Environment op => environmentLen op
  | .Unknown _ bytes => bytes.length

/-! ## Event model (src/event.rs) -/

/-- Model of `TelnetEvent` (src/event.rs); `Message`/`RawMessage` carry the UTF-8
bytes of the Rust `String`. -/
inductive TelnetEvent where
  | Character (byte : Nat)
  | Message (message : List Nat)
  | RawMessage (message : List Nat)
  | Do (option : TelnetOption)
  | Will (option : TelnetOption)
  | Dont (option : TelnetOption)
  | Wont (option : TelnetOption)
  | Subnegotiate (sb : SubnegotiationType)
  | GoAhead
  | Nop
deriving DecidableEq

/-- Model of `TelnetEvent::len` (src/event.rs). -/
def TelnetEvent.len : TelnetEvent → Nat
  | .Message message => message.length
  | .RawMessage message => message.length
  | .Subnegotiate subnegotiation => 5 + subnegotiation.len
  | .Character _ => 1
  | .Do _ | .Will _ | .Dont _ | .Wont _ => 6
  | _ => 5

/-! ## NEW-ENVIRON decoding (src/env.rs) -/

/-- Model of `Escape` (src/env.rs): escape state of the NEW-ENVIRON sub-decoders. -/
inductive Escape where
  | unescaped
  | escaped (b : Nat)
deriving DecidableEq

/-- Loop body of `decode_env_name` (src/env.rs). `i` is the `enumerate`
index; when the whole input is consumed in the `Unescaped` state the Rust
code returns `subvec.len()`, which equals the final value of `i` since `i`
is incremented once per consumed byte starting from 0. -/
def decode_env_name_loop : List Nat → Escape → List Nat → Nat →
    Option (List Nat × Nat)
  | [], .unescaped, buf, i => some (buf, i)
  | [], .escaped _, _, _ => none
  | b :: rest, .unescaped, buf, i =>
    if b = ENV_ESC then decode_env_name_loop rest (.escaped ENV_ESC) buf (i + 1)
    else if b = ENV_VALUE ∨ b = ENV_USERVAR ∨ b = ENV_VAR then some (buf, i)
    else if b = IAC then decode_env_name_loop rest (.escaped IAC) buf (i + 1)
    else decode_env_name_loop rest .unescaped (buf ++ [b]) (i + 1)
  | b :: rest, .escaped e, buf, i =>
    if e = ENV_ESC ∧ (b = ENV_VAR ∨ b = ENV_USERVAR ∨ b = ENV_VALUE ∨ b = ENV_ESC) then
      decode_env_name_loop rest .unescaped (buf ++ [b]) (i + 1)
    else if e = IAC ∧ b = IAC then
      decode_env_name_loop rest .unescaped (buf ++ [IAC]) (i + 1)
    else none

/-- Model of `decode_env_name` (src/env.rs). -/
def decode_env_name (subvec : List Nat) : Option (List Nat × Nat) :=
  if subvec = [] then none
  else decode_env_name_loop subvec .unescaped [] 0

/-- Loop body of `decode_env_value` (src/env.rs); differs from the name
decoder in that an unescaped `ENV_VALUE` is invalid rather than a
terminator. -/
def decode_env_value_loop : List Nat → Escape → List Nat → Nat →
    Option (List Nat × Nat)
  | [], .unescaped, buf, i => some (buf, i)
  | [], .escaped _, _, _ => none
  | b :: rest, .unescaped, buf, i =>
    if b = ENV_ESC then decode_env_value_loop rest (.escaped ENV_ESC) buf (i + 1)
    else if b = ENV_USERVAR ∨ b = ENV_VAR then some (buf, i)
    else if b = IAC then decode_env_value_loop rest (.escaped IAC) buf (i + 1)
    else if b = ENV_VALUE then none
    else decode_env_value_loop rest .unescaped (buf ++ [b]) (i + 1)
  | b :: rest, .escaped e, buf, i =>
    if e = ENV_ESC ∧ (b = ENV_VAR ∨ b = ENV_USERVAR ∨ b = ENV_VALUE ∨ b = ENV_ESC) then
      decode_env_value_loop rest .unescaped (buf ++ [b]) (i + 1)
    else if e = IAC ∧ b = IAC then
      decode_env_value_loop rest .unescaped (buf ++ [IAC]) (i + 1)
    else none

/-- Model of `decode_env_value` (src/env.rs). -/
def decode_env_value (subvec : List Nat) : Option (List Nat × Nat) :=
  if subvec = [] then some ([], 0)
  else decode_env_value_loop subvec .unescaped [] 0

/-- Model of `decode_env_var` (src/env.rs): name, optional value, and the number of
consumed bytes. The returned name is the UTF-8 byte sequence of the Rust
`String` (`String::from_utf8(raw_name).ok()?` is the validity check). -/
def decode_env_var (subvec : List Nat) :
    Option (List Nat × Option (List Nat) × Nat) :=
  match decode_env_name subvec with
  | none => none
  | some (raw_name, size) =>
    if raw_name = [] then none
    else
      let valuevec := subvec.drop size
      let step : Option (Option (List Nat) × Nat) :=
        match valuevec.head? with
        | some b =>
          if b = ENV_VALUE then
            match decode_env_value (valuevec.drop 1) with
            | none => none
            | some (value, value_size) => some (some value, size + 1 + value_size)
          else some (none, size)
        | none => some (none, size)
      match step with
      | none => none
      | some (value, size) =>
        if validUtf8 raw_name then some (raw_name, value, size) else none

/-- Model of the `while` loop of `decode_env_is` (src/env.rs), indexing into `subvec`
with `index` exactly as the source does. -/
def decode_env_is_loop (subvec : List Nat) (index : Nat)
    (buf : List (EnvironmentKind × Option (List Nat))) :
    Option (List (EnvironmentKind × Option (List Nat))) :=
  if _h : index < subvec.length then
    let b := subvec.getD index 0
    if b = ENV_USERVAR then
      match decode_env_var (subvec.drop (index + 1)) with
      | none => none
      | some (name, value, size) =>
        decode_env_is_loop subvec (index + (size + 1))
          (buf ++ [(.UserDefined (some name), value)])
    else if b = ENV_VAR then
      match decode_env_var (subvec.drop (index + 1)) with
      | none => none
      | some (name, value, size) =>
        decode_env_is_loop subvec (index + (size + 1))
          (buf ++ [(.WellKnown (some (WellKnownVariable.fromBytes name)), value)])
    else none
  else some buf
termination_by subvec.length - index

/-- Model of `decode_env_is` (src/env.rs); also used for `INFO` payloads. -/
def decode_env_is (subvec : List Nat) :
    Option (List (EnvironmentKind × Option (List Nat))) :=
  if subvec = [] then some []
  else decode_env_is_loop subvec 0 []

/-- Model of `decode_env_send_var` (src/env.rs). Note the mapping: an `ENV_USERVAR`
tag produces `EnvironmentKind::WellKnown` and an `ENV_VAR` tag produces
`EnvironmentKind::UserDefined`. -/
def decode_env_send_var (kind : Nat) (name : List Nat) :
    Option EnvironmentKind :=
  let inner : Option (Option (List Nat)) :=
    if name = [] then some none
    else if validUtf8 name then some (some name) else none
  match inner with
  | none => none
  | some inner =>
    if kind = ENV_USERVAR then
      some (.WellKnown (inner.map WellKnownVariable.fromBytes))
    else if kind = ENV_VAR then
      some (.UserDefined inner)
    else none

/-- Loop body of `decode_env_send` (src/env.rs), folding over the bytes
after the first; the `[]` case is the trailing-declaration flush after the
`for` loop. -/
def decode_env_send_loop : List Nat → Nat → List Nat →
    List EnvironmentKind → Option (List EnvironmentKind)
  | [], current_kind, current_name, buf =>
    if current_name ≠ [] then
      match decode_env_send_var current_kind current_name with
      | none => none
      | some k => some (buf ++ [k])
    else some buf
  | b :: rest, current_kind, current_name, buf =>
    if b = ENV_USERVAR ∨ b = ENV_VAR then
      match decode_env_send_var current_kind current_name with
      | none => none
      | some k => decode_env_send_loop rest b [] (buf ++ [k])
    else decode_env_send_loop rest current_kind (current_name ++ [b]) buf

/-- Model of `decode_env_send` (src/env.rs). -/
def decode_env_send (subvec : List Nat) : Option (List EnvironmentKind) :=
  if subvec = [] then some []
  else decode_env_send_loop (subvec.drop 1) (subvec.getD 0 0) [] []

/-- Model of `decode_env` (src/env.rs): dispatch on the operation byte. -/
def decode_env (subvec : List Nat) : Option TelnetEvent :=
  if subvec = [] then none
  else
    let first := subvec.getD 0 0
    if first = ENV_IS then
      match decode_env_is (subvec.drop 1) with
      | none => none
      | some vars => some (.Subnegotiate (.Environment (.Is vars)))
    else if first = ENV_SEND then
      match decode_env_send (subvec.drop 1) with
      | none => none
      | some vars => some (.Subnegotiate (.Environment (.Send vars)))
    else if first = ENV_INFO then
      match decode_env_is (subvec.drop 1) with
      | none => none
      | some vars => some (.Subnegotiate (.Environment (.Info vars)))
    else some (.Subnegotiate (.Environment (.Unknown first (subvec.drop 1))))

/-! ## Codec state and main decoder (src/lib.rs) -/

/-- Model of `TelnetCodec` (src/lib.rs) without the `unicode`-feature field; `buffer`
is the line accumulator. -/
structure TelnetCodec where
  sga : Bool
  max_buffer_length : Nat
  buffer : List Nat
  message_mode : Bool
deriving DecidableEq

/-- Model of `TelnetCodec::new` (src/lib.rs). -/
def TelnetCodec.new (max_buffer_length : Nat) : TelnetCodec where
  sga := false
  max_buffer_length := max_buffer_length
  buffer := []
  message_mode := true

/-- Model of `decode_negotiate` (src/lib.rs). Returns the transport buffer (advanced
past the three-byte frame on success) and the decoded event. The final
branch is the source's `_ => None` arm, reached after the advance. -/
def decode_negotiate (byteIndex : Nat) (buffer : List Nat) (option : Nat) :
    List Nat × Option TelnetEvent :=
  if byteIndex + 2 ≥ buffer.length then (buffer, none)
  else
    let byte := buffer.getD (byteIndex + 2) 0
    let buffer := buffer.drop (byteIndex + 3)
    if option = WILL then (buffer, some (.Will (TelnetOption.fromU8 byte)))
    else if option = WONT then (buffer, some (.Wont (TelnetOption.fromU8 byte)))
    else if option = DO then (buffer, some (.Do (TelnetOption.fromU8 byte)))
    else if option = DONT then (buffer, some (.Dont (TelnetOption.fromU8 byte)))
    else (buffer, none)

/-- Model of `decode_suppress_go_ahead` (src/lib.rs); the caller has already checked
that the buffer is non-empty, so `buffer[0]` is in bounds. -/
def decode_suppress_go_ahead (buffer : List Nat) :
    List Nat × Option TelnetEvent :=
  if buffer.getD 0 0 = IAC then
    if 1 ≥ buffer.length then (buffer, none)
    else if buffer.getD 1 0 = IAC then (buffer.drop 2, some (.Character IAC))
    else (buffer, none)
  else (buffer, none)

/-- Model of `decode_negotiate_about_window_size` (src/lib.rs): the two `u16` values
are built with `<< 8` and `|`. -/
def decode_negotiate_about_window_size (subvec : List Nat) :
    Option TelnetEvent :=
  if subvec.length = 4 then
    some (.Subnegotiate (.WindowSize
      ((subvec.getD 0 0 <<< 8) ||| subvec.getD 1 0)
      ((subvec.getD 2 0 <<< 8) ||| subvec.getD 3 0)))
  else none

/-- Model of `slice::split` on a separator byte, as used by `decode_charset`: groups
of bytes between separators, with an empty group for each leading, trailing
or doubled separator, and a single empty group for empty input. The final
`[]` arm of the inner match is unreachable (the recursive result is always
non-empty). -/
def split_on_byte (separator : Nat) : List Nat → List (List Nat)
  | [] => [[]]
  | b :: rest =>
    if b = separator then [] :: split_on_byte separator rest
    else
      match split_on_byte separator rest with
      | g :: gs => (b :: g) :: gs
      | [] => [[b]]

/-- Model of `decode_charset` (src/lib.rs). -/
def decode_charset (subvec : List Nat) : Option TelnetEvent :=
  if subvec = [] then none
  else
    let b := subvec.getD 0 0
    if b = CHARSET_REQUEST then
      if subvec.length = 1 then none
      else
        let separator := subvec.getD 1 0
        let charsets := split_on_byte separator (subvec.drop 2)
        if charsets = [] then none
        else some (.Subnegotiate (.CharsetRequest charsets))
    else if b = CHARSET_ACCEPTED then
      some (.Subnegotiate (.CharsetAccepted (subvec.drop 1)))
    else if b = CHARSET_REJECTED then
      some (.Subnegotiate .CharsetRejected)
    else if b = CHARSET_TTABLE_REJECTED then
      some (.Subnegotiate .CharsetTTableRejected)
    else none

/-- Model of `chunks_exact(3)` over a byte list, dropping a trailing partial chunk,
as used by `decode_linemode` for SLC triples. -/
def chunks_exact_3 : List Nat → List (Nat × Nat × Nat)
  | [] => []
  | a :: r1 =>
    match r1 with
    | [] => []
    | b :: r2 =>
      match r2 with
      | [] => []
      | c :: rest => (a, b, c) :: chunks_exact_3 rest
termination_by l => l.length
decreasing_by all_goals simp <;> omega

/-- Model of `decode_linemode` (src/lib.rs). The `Mode` arm reads `subvec[1]` and the
`ForwardMask` arm slices `&subvec[2..]` without bounds checks, so a
one-byte payload selecting either arm panics (`Outcome.panicked`). -/
def decode_linemode (subvec : List Nat) : Outcome (Option TelnetEvent) :=
  if subvec = [] then .ret none
  else
    let s0 := subvec.getD 0 0
    if s0 = WILL ∨ s0 = WONT ∨ s0 = DO ∨ s0 = DONT ∨ s0 = LINEMODE_FORWARD_MASK then
      -- LineModeOption::ForwardMask: `let data = &subvec[2..];`
      if subvec.length < 2 then .panicked
      else
        let data := subvec.drop 2
        let option := if s0 = DO then ForwardMaskOption.Do data
                      else ForwardMaskOption.fromU8 s0
        .ret (some (.Subnegotiate (.LineMode (.ForwardMask option))))
    else if s0 = LINEMODE_SLC then
      let slc_data := subvec.drop 1
      let slc_triples := (chunks_exact_3 slc_data).map
        (fun chunk => (Dispatch.fromPair chunk.1 chunk.2.1, chunk.2.2))
      .ret (some (.Subnegotiate (.LineMode (.SLC slc_triples))))
    else if s0 = MODE then
      -- `let mode = subvec[1];`
      match subvec.drop 1 with
      | [] => .panicked
      | mode :: _ => .ret (some (.Subnegotiate (.LineMode (.Mode mode))))
    else .ret (some (.Subnegotiate (.LineMode (.Unknown s0 (subvec.drop 1)))))

/-- Model of `decode_unknown` (src/lib.rs). -/
def decode_unknown (option : Nat) (subvec : List Nat) : TelnetEvent :=
  .Subnegotiate (.Unknown (TelnetOption.fromU8 option) subvec)

/-- The option dispatch inside `decode_subnegotiation_end` (src/lib.rs,
the `match option` computing `opt`). -/
def subneg_dispatch (option : Nat) (subvec : List Nat) :
    Outcome (Option TelnetEvent) :=
  if option = NAWS then .ret (decode_negotiate_about_window_size subvec)
  else if option = CHARSET then .ret (decode_charset subvec)
  else if option = LINEMODE then decode_linemode subvec
  else if option = ENVIRON then .ret (decode_env subvec)
  else .ret (some (decode_unknown option subvec))

/-- Model of `decode_subnegotiation_end` (src/lib.rs). On a decoded event the
transport buffer is advanced by `event.len()` (from its front); otherwise
it is left unchanged. `codecBuffer` is the codec's accumulator, passed
through untouched. -/
def decode_subnegotiation_end (invalid : Bool) (buffer : List Nat)
    (subvec : List Nat) (option : Nat) (codecBuffer : List Nat) :
    Outcome (List Nat × List Nat × Option TelnetEvent) :=
  if invalid then .ret (codecBuffer, buffer, none)
  else
    match subneg_dispatch option subvec with
    | .panicked => .panicked
    | .ret none => .ret (codecBuffer, buffer, none)
    | .ret (some event) =>
      .ret (codecBuffer, buffer.drop event.len, some event)

/-- The inner subnegotiation loop of `decode_bytes` (src/lib.rs, the `loop`
inside the `SB` arm). `rest` is the unscanned suffix `buffer.drop byteIndex`
of the fixed transport buffer, carried alongside the index so that the
source's absolute-index arithmetic can be written verbatim.

The source guards are strict: `byte_index > buffer.len()` and
`byte_index + 1 > buffer.len()`. Since `byteIndex` never exceeds
`buffer.len()`, these guards never fire and the subsequent unchecked
indexing `buffer[byte_index]` / `buffer[byte_index + 1]` goes out of bounds
exactly when the corresponding suffix is empty, which panics. -/
def decode_sb_loop (buffer : List Nat) (start opt : Nat) :
    Nat → List Nat → List Nat → Bool → List Nat →
    Outcome (List Nat × List Nat × Option TelnetEvent)
  | byteIndex, [], _subvec, _invalid, codecBuffer =>
    if byteIndex > buffer.length then .ret (codecBuffer, buffer.drop start, none)
    else .panicked
  | byteIndex, b :: rest, subvec, invalid, codecBuffer =>
    if b = IAC then
      match rest with
      | [] =>
        if byteIndex + 1 > buffer.length then .ret (codecBuffer, buffer, none)
        else .panicked
      | b2 :: rest2 =>
        if b2 = SE then
          decode_subnegotiation_end invalid buffer subvec opt codecBuffer
        else if b2 = IAC then
          decode_sb_loop buffer start opt (byteIndex + 2) rest2
            (subvec ++ [IAC]) invalid codecBuffer
        else
          decode_sb_loop buffer start opt (byteIndex + 2) rest2
            subvec true codecBuffer
    else
      decode_sb_loop buffer start opt (byteIndex + 1) rest
        (subvec ++ [b]) invalid codecBuffer
termination_by _ rest _ _ _ => rest.length

/-- Model of `decode_bytes` (src/lib.rs): the main line-mode scanning loop. The state
is the scan position `byteIndex` together with the unscanned suffix `rest`
(equal to `buffer.drop byteIndex` at every call), the codec accumulator
`codecBuffer` (`codec.buffer`) and the running byte count `size`
(`codec_buffer_size`, initialised to the accumulator's length and *not*
reset when the `\n` arm empties the accumulator with `mem::take`).

Returns the final accumulator, the transport buffer after any `advance`,
and the emitted event. -/
def decode_bytes (mm : Bool) (maxLen : Nat) (buffer : List Nat) :
    Nat → List Nat → List Nat → Nat →
    Outcome (List Nat × List Nat × Option TelnetEvent)
  | _byteIndex, [], codecBuffer, _size =>
    -- `if *byte_index >= buffer.len() { return None; }` — no advance
    .ret (codecBuffer, buffer, none)
  | byteIndex, b :: rest, codecBuffer, size =>
    if b = IAC then
      match rest with
      | [] =>
        -- `if *byte_index + 1 >= buffer.len() { return None; }`
        .ret (codecBuffer, buffer, none)
      | b2 :: rest2 =>
        if b2 = IAC then
          -- doubled IAC: push one literal IAC if the accumulator is short
          let st := if codecBuffer.length < maxLen
                    then (codecBuffer ++ [IAC], size + 1)
                    else (codecBuffer, size)
          decode_bytes mm maxLen buffer (byteIndex + 2) rest2 st.1 st.2
        else if b2 = DO ∨ b2 = DONT ∨ b2 = WILL ∨ b2 = WONT then
          let r := decode_negotiate byteIndex buffer b2
          .ret (codecBuffer, r.1, r.2)
        else if b2 = SB then
          match rest2 with
          | [] =>
            -- `buffer.advance(*byte_index + 2); return None;`
            .ret (codecBuffer, buffer.drop (byteIndex + 2), none)
          | opt :: rest3 =>
            decode_sb_loop buffer byteIndex opt (byteIndex + 3) rest3 [] false
              codecBuffer
        else if b2 = NOP then
          decode_bytes mm maxLen buffer (byteIndex + 2) rest2 codecBuffer size
        else
          -- `_ => {}`: skip the IAC byte only
          decode_bytes mm maxLen buffer (byteIndex + 1) (b2 :: rest2)
            codecBuffer size
    else if b = 10 then
      -- `b'\n'` arm: `mem::take` empties the accumulator in both branches
      if codecBuffer.getLast? = some 13 then
        .ret ([], buffer.drop (byteIndex + 1),
          some (.Message (fromUtf8Lossy codecBuffer.dropLast)))
      else
        -- the taken bytes are dropped; `decode_next_byte` pushes the `\n`
        -- onto the now-empty accumulator if `size` is below the cap
        let st := if size < maxLen then (([10] : List Nat), size + 1)
                  else (([] : List Nat), size)
        decode_bytes mm maxLen buffer (byteIndex + 1) rest st.1 st.2
    else if mm = false then
      -- character mode: `mem::take` + `pop` discards the accumulator
      .ret ([], buffer.drop (byteIndex + 1), some (.Character b))
    else
      -- `decode_next_byte`: push if `size` is below the cap
      let st := if size < maxLen then (codecBuffer ++ [b], size + 1)
                else (codecBuffer, size)
      decode_bytes mm maxLen buffer (byteIndex + 1) rest st.1 st.2
termination_by _ rest _ _ => rest.length

/-- Model of `TelnetCodec::decode` (src/lib.rs, `impl Decoder`). The Rust function
always returns `Ok`, so the `Result` wrapper is dropped; panics surface as
`Outcome.panicked`. Returns the new codec, the remaining transport buffer
and the optional event. -/
def TelnetCodec.decode (codec : TelnetCodec) (buffer : List Nat) :
    Outcome (TelnetCodec × List Nat × Option TelnetEvent) :=
  if codec.sga ∧ codec.buffer ≠ [] then
    .ret ({ codec with buffer := [] }, buffer,
      some (.Message (fromUtf8Lossy codec.buffer)))
  else if buffer = [] then .ret (codec, buffer, none)
  else if codec.sga then
    let r := decode_suppress_go_ahead buffer
    .ret (codec, r.1, r.2)
  else
    match decode_bytes codec.message_mode codec.max_buffer_length buffer 0
        buffer codec.buffer codec.buffer.length with
    | .panicked => .panicked
    | .ret (cb, buffer, event) => .ret ({ codec with buffer := cb }, buffer, event)

/-! ## Encoder (src/lib.rs) -/

/-- Model of `encode_negotiate` (src/lib.rs): `IAC`, the verb, then the option byte.
The `_ => unreachable!()` arm of the inner match panics. -/
def encode_negotiate (opt : Nat) (subopt : TelnetOption) (buf : List Nat) :
    Outcome (List Nat) :=
  if opt = DO ∨ opt = DONT ∨ opt = WILL ∨ opt = WONT then
    .ret (buf ++ [IAC, opt, subopt.toU8])
  else .panicked

/-- Model of `encode_sb` (src/lib.rs). -/
def encode_sb (sb : SubnegotiationType) (buffer : List Nat) : List Nat :=
  match sb with
  | .WindowSize width height =>
    -- `put_u16` writes the value big-endian
    buffer ++ [IAC, SB, NAWS] ++
      [width / 256 % 256, width % 256, height / 256 % 256, height % 256] ++
      [IAC, SE]
  | .CharsetRequest charsets =>
    -- `sep` is a space; one separator between consecutive charsets
    buffer ++ [IAC, SB, CHARSET, CHARSET_REQUEST, 32] ++
      List.intercalate [32] charsets ++ [IAC, SE]
  | .CharsetAccepted charset =>
    buffer ++ [IAC, SB, CHARSET, CHARSET_ACCEPTED] ++ charset ++ [IAC, SE]
  | .CharsetRejected =>
    buffer ++ [IAC, SB, CHARSET, CHARSET_REJECTED, IAC, SE]
  | .CharsetTTableRejected =>
    buffer ++ [IAC, SB, CHARSET, CHARSET_TTABLE_REJECTED, IAC, SE]
  | .Environment op =>
    encode_env_op op (buffer ++ [IAC, SB, ENVIRON]) ++ [IAC, SE]
  | .Unknown option bytes =>
    buffer ++ [IAC, SB, option.toU8] ++
      (bytes.flatMap fun byte => if byte = IAC then [IAC, IAC] else [byte]) ++
      [IAC, SE]
  | .LineMode mode =>
    match mode with
    | .Mode value =>
      buffer ++ [IAC, SB, LINEMODE, MODE, value, IAC, SE]
    | .SLC values =>
      buffer ++ [IAC, SB, LINEMODE, LINEMODE_SLC] ++
        (values.flatMap fun dc =>
          [dc.1.function.toU8, dc.1.modifiers.toU8, dc.2 % 256]) ++
        [IAC, SE]
    | .ForwardMask (.Do data) =>
      -- `data.into_iter().take(16)` padded with zeros to 16 bytes
      let taken := data.take 16
      buffer ++ [IAC, SB, LINEMODE, DO, LINEMODE_FORWARD_MASK] ++
        (taken ++ List.replicate (16 - taken.length) 0) ++ [IAC, SE]
    | .ForwardMask option =>
      buffer ++ [IAC, SB, LINEMODE, option.toU8, LINEMODE_FORWARD_MASK, IAC, SE]
    | .Unknown option data =>
      buffer ++ [IAC, SB, LINEMODE, option] ++ data ++ [IAC, SE]

/-- Model of `encode_raw_message` (src/lib.rs). The write loop is
`if *byte == IAC { buffer.extend([IAC, IAC]); } buffer.put_u8(*byte);`:
the unconditional `put_u8` runs after the conditional `extend`, so an IAC
payload byte produces the two extended bytes followed by the byte itself. -/
def encode_raw_message (message : List Nat) (buffer : List Nat) : List Nat :=
  buffer ++ message.flatMap fun byte =>
    (if byte = IAC then [IAC, IAC] else []) ++ [byte]

/-- Model of `encode_message` (src/lib.rs): raw-encode, then append `\r\n` unless the
whole output buffer already ends with it. -/
def encode_message (message : List Nat) (buffer : List Nat) : List Nat :=
  let buffer := encode_raw_message message buffer
  if List.isSuffixOf [13, 10] buffer then buffer else buffer ++ [13, 10]

/-- Model of `TelnetCodec::encode` (src/lib.rs, `impl Encoder`): appends the wire
bytes of the event; `GoAhead`, `Nop` and `Character` fall into the `_ => {}`
arm. The Rust method takes `&mut self` but never writes any codec field, so
the codec is not part of the model's state here. -/
def TelnetCodec.encode (event : TelnetEvent) (buffer : List Nat) :
    Outcome (List Nat) :=
  match event with
  | .Do option => encode_negotiate DO option buffer
  | .Dont option => encode_negotiate DONT option buffer
  | .Will option => encode_negotiate WILL option buffer
  | .Wont option => encode_negotiate WONT option buffer
  | .Subnegotiate sb_type => .ret (encode_sb sb_type buffer)
  | .Message msg => .ret (encode_message msg buffer)
  | .RawMessage msg => .ret (encode_raw_message msg buffer)
  | _ => .ret buffer

/-! ## Driver helpers

These model how a host drives the codec: calling `decode` repeatedly until
it reports that it needs more bytes, and appending newly arrived chunks to
whatever the codec left in the transport buffer. -/

/-- Call `decode` up to `fuel` times, collecting emitted events; stop at the
first call that returns no event (or panics). Returns the final codec, the
remaining transport bytes and the events in order. -/
def decodeDrain : Nat → TelnetCodec → List Nat →
    TelnetCodec × List Nat × List TelnetEvent
  | 0, codec, buffer => (codec, buffer, [])
  | fuel + 1, codec, buffer =>
    match codec.decode buffer with
    | .panicked => (codec, buffer, [])
    | .ret (codec, buffer, none) => (codec, buffer, [])
    | .ret (codec, buffer, some event) =>
      let r := decodeDrain fuel codec buffer
      (r.1, r.2.1, event :: r.2.2)

/-- Feed the chunks one after the other: append each chunk to the transport
bytes the previous round left behind, then drain. Collects all events. -/
def feedChunks (fuel : Nat) : TelnetCodec → List Nat → List (List Nat) →
    TelnetCodec × List Nat × List TelnetEvent
  | codec, leftover, [] => (codec, leftover, [])
  | codec, leftover, chunk :: chunks =>
    let r := decodeDrain fuel codec (leftover ++ chunk)
    let r2 := feedChunks fuel r.1 r.2.1 chunks
    (r2.1, r2.2.1, r.2.2 ++ r2.2.2)

/-- One host-side call against a codec: a `decode` with some transport
bytes, or an `encode` of some event into some output buffer. -/
inductive CodecCall where
  | decodeCall (input : List Nat)
  | encodeCall (event : TelnetEvent) (out : List Nat)

/-- Run a sequence of calls, threading the codec state. A panic aborts the
Rust program, so the codec state no longer changes after one. `encode`
never writes any codec field (src/lib.rs lines 106-119). -/
def runCalls : TelnetCodec → List CodecCall → TelnetCodec
  | codec, [] => codec
  | codec, .decodeCall input :: calls =>
    match codec.decode input with
    | .panicked => runCalls codec calls
    | .ret (codec, _, _) => runCalls codec calls
  | codec, .encodeCall event out :: calls =>
    let _ := TelnetCodec.encode event out
    runCalls codec calls

/-! ## Simp equations

All model definitions are usable as rewrite rules, so that concrete runs of
the codec can be evaluated by `simp`. -/

attribute [simp] ECHO
attribute [simp] GA
attribute [simp] SGA
attribute [simp] IAC
attribute [simp] SB
attribute [simp] NAWS
attribute [simp] SE
attribute [simp] NOP
attribute [simp] LINEMODE
attribute [simp] MODE
attribute [simp] LINEMODE_SLC
attribute [simp] LINEMODE_FORWARD_MASK
attribute [simp] WILL
attribute [simp] WONT
attribute [simp] DO
attribute [simp] DONT
attribute [simp] TELOPT_EOR
attribute [simp] MSSP
attribute [simp] MCCP2
attribute [simp] MSP
attribute [simp] MXP
attribute [simp] GMCP
attribute [simp] CHARSET
attribute [simp] CHARSET_REQUEST
attribute [simp] CHARSET_ACCEPTED
attribute [simp] CHARSET_REJECTED
attribute [simp] CHARSET_TTABLE_REJECTED
attribute [simp] SLC_LEVELBITS
attribute [simp] SLC_ACK
attribute [simp] SLC_FLUSHIN
attribute [simp] SLC_FLUSHOUT
attribute [simp] ENVIRON
attribute [simp] ENV_IS
attribute [simp] ENV_SEND
attribute [simp] ENV_INFO
attribute [simp] ENV_VAR
attribute [simp] ENV_VALUE
attribute [simp] ENV_ESC
attribute [simp] ENV_USERVAR
attribute [simp] ENV_USER
attribute [simp] ENV_JOB
attribute [simp] ENV_ACCT
attribute [simp] ENV_PRINTER
attribute [simp] ENV_SYSTEMTYPE
attribute [simp] ENV_DISPLAY
attribute [simp] utf8Cont
attribute [simp] validUtf8
attribute [simp] utf8Replacement
attribute [simp] utf8SecondOk
attribute [simp] fromUtf8Lossy
attribute [simp] TelnetOption.fromU8
attribute [simp] TelnetOption.toU8
attribute [simp] Level.fromU8
attribute [simp] Level.toU8
attribute [simp] Modifiers.fromU8
attribute [simp] Modifiers.toU8
attribute [simp] SlcFunction.fromU8
attribute [simp] SlcFunction.toU8
attribute [simp] Dispatch.fromPair
attribute [simp] ForwardMaskOption.fromU8
attribute [simp] ForwardMaskOption.toU8
attribute [simp] WellKnownVariable.fromBytes
attribute [simp] WellKnownVariable.asBytes
attribute [simp] EnvironmentKind.as_u8
attribute [simp] EnvironmentKind.name
attribute [simp] encode_env_vars
attribute [simp] encode_env_op
attribute [simp] environmentLen
attribute [simp] SubnegotiationType.len
attribute [simp] TelnetEvent.len
attribute [simp] TelnetCodec.new
attribute [simp] decode_negotiate
attribute [simp] decode_suppress_go_ahead
attribute [simp] decode_negotiate_about_window_size
attribute [simp] decode_charset
attribute [simp] chunks_exact_3
attribute [simp] split_on_byte
attribute [simp] decode_linemode
attribute [simp] decode_unknown
attribute [simp] subneg_dispatch
attribute [simp] decode_subnegotiation_end
attribute [simp] decode_sb_loop
attribute [simp] decode_bytes
attribute [simp] TelnetCodec.decode
attribute [simp] decode_env_name_loop
attribute [simp] decode_env_name
attribute [simp] decode_env_value_loop
attribute [simp] decode_env_value
attribute [simp] decode_env_var
attribute [simp] decode_env_is
attribute [simp] decode_env_send_var
attribute [simp] decode_env_send_loop
attribute [simp] decode_env_send
attribute [simp] decode_env
attribute [simp] encode_negotiate
attribute [simp] encode_sb
attribute [simp] encode_raw_message
attribute [simp] encode_message
attribute [simp] TelnetCodec.encode
attribute [simp] decodeDrain
attribute [simp] feedChunks
attribute [simp] runCalls

/-! ## Sanity checks

Concrete evaluations mirroring the crate's own unit tests (src/lib.rs
`mod tests`, src/env.rs `mod tests`). -/

example : (TelnetCodec.new 16).decode [255, 253, 1] =
    .ret (TelnetCodec.new 16, [], some (.Do .Echo)) := by simp <;> decide

example : (TelnetCodec.new 16).decode [255, 254, 1] =
    .ret (TelnetCodec.new 16, [], some (.Dont .Echo)) := by simp <;> decide

example : (TelnetCodec.new 16).decode [255, 251, 1] =
    .ret (TelnetCodec.new 16, [], some (.Will .Echo)) := by simp <;> decide

example : (TelnetCodec.new 16).decode [255, 252, 1] =
    .ret (TelnetCodec.new 16, [], some (.Wont .Echo)) := by simp <;> decide

-- test_nop: no event, buffer not consumed
example : (TelnetCodec.new 16).decode [255, 241] =
    .ret (TelnetCodec.new 16, [255, 241], none) := by simp <;> decide

-- test_double_iac: literal IAC accumulated, input buffer not consumed
example : (TelnetCodec.new 16).decode [255, 255] =
    .ret (⟨false, 16, [255], true⟩, [255, 255], none) := by simp <;> decide

-- test_sb_naws
example : (TelnetCodec.new 16).decode [255, 250, 31, 0, 80, 0, 80, 255, 240] =
    .ret (TelnetCodec.new 16, [], some (.Subnegotiate (.WindowSize 80 80))) := by simp <;> decide

-- test_buffer_starts_with_newline, first call: flush "cool!"
example :
    TelnetCodec.decode ⟨false, 16, [99, 111, 111, 108, 33, 13], true⟩
      [10, 121, 101, 115] =
    .ret (⟨false, 16, [], true⟩, [121, 101, 115],
      some (.Message [99, 111, 111, 108, 33])) := by simp <;> decide

-- test_buffer_starts_with_newline, second call: "yes" is accumulated but
-- not removed from the input buffer
example :
    TelnetCodec.decode ⟨false, 16, [], true⟩ [121, 101, 115] =
    .ret (⟨false, 16, [121, 101, 115], true⟩, [121, 101, 115], none) := by simp <;> decide

-- test_overflow: 10 'a' + 10 'z' with cap 16 keeps 10 'a' + 6 'z'
example :
    (TelnetCodec.new 16).decode
      [97, 97, 97, 97, 97, 97, 97, 97, 97, 97,
       122, 122, 122, 122, 122, 122, 122, 122, 122, 122] =
    .ret (⟨false, 16, [97, 97, 97, 97, 97, 97, 97, 97, 97, 97,
       122, 122, 122, 122, 122, 122], true⟩,
      [97, 97, 97, 97, 97, 97, 97, 97, 97, 97,
       122, 122, 122, 122, 122, 122, 122, 122, 122, 122], none) := by
  simp

-- test_sga_true: doubled IAC in SGA mode
example : TelnetCodec.decode ⟨true, 16, [], true⟩ [255] =
    .ret (⟨true, 16, [], true⟩, [255], none) := by simp <;> decide

example : TelnetCodec.decode ⟨true, 16, [], true⟩ [255, 255] =
    .ret (⟨true, 16, [], true⟩, [], some (.Character 255)) := by simp <;> decide

example : TelnetCodec.decode ⟨true, 16, [], true⟩ [255, 251] =
    .ret (⟨true, 16, [], true⟩, [255, 251], none) := by simp <;> decide

-- test_sb_charset_request
example :
    (TelnetCodec.new 16).decode
      ([255, 250, 42, 1, 32] ++ [85, 84, 70, 45, 56] ++ [32] ++
       [85, 83, 45, 65, 83, 67, 73, 73] ++ [255, 240]) =
    .ret (TelnetCodec.new 16, [],
      some (.Subnegotiate (.CharsetRequest
        [[85, 84, 70, 45, 56], [85, 83, 45, 65, 83, 67, 73, 73]]))) := by simp <;> decide

-- test_sb_charset_accepted
example :
    (TelnetCodec.new 16).decode
      ([255, 250, 42, 2] ++ [85, 84, 70, 45, 56] ++ [255, 240]) =
    .ret (TelnetCodec.new 16, [],
      some (.Subnegotiate (.CharsetAccepted [85, 84, 70, 45, 56]))) := by simp <;> decide

-- test_sb_charset_rejected
example : (TelnetCodec.new 16).decode [255, 250, 42, 3, 255, 240] =
    .ret (TelnetCodec.new 16, [], some (.Subnegotiate .CharsetRejected)) := by simp <;> decide

-- test_sb_linemode_mode_decode (LINEMODE_EDIT = 1)
example : (TelnetCodec.new 16).decode [255, 250, 34, 1, 1, 255, 240] =
    .ret (TelnetCodec.new 16, [],
      some (.Subnegotiate (.LineMode (.Mode 1)))) := by simp <;> decide

-- test_sb_linemode_unk_decode
example :
    (TelnetCodec.new 16).decode
      [255, 250, 34, 123, 1, 2, 3, 4, 5, 6, 255, 240] =
    .ret (TelnetCodec.new 16, [],
      some (.Subnegotiate (.LineMode (.Unknown 123 [1, 2, 3, 4, 5, 6])))) := by simp <;> decide

-- test_sb_linemode_slc_decode
example :
    (TelnetCodec.new 16).decode
      [255, 250, 34, 3, 7, 0, 48, 1, 0, 49, 2, 0, 50, 255, 240] =
    .ret (TelnetCodec.new 16, [],
      some (.Subnegotiate (.LineMode (.SLC
        [(⟨.Abort, ⟨.NoSupport, false, false, false⟩⟩, 48),
         (⟨.Synch, ⟨.NoSupport, false, false, false⟩⟩, 49),
         (⟨.Brk, ⟨.NoSupport, false, false, false⟩⟩, 50)])))) := by simp <;> decide

-- test_sb_linemode_fmask_decode
example :
    (TelnetCodec.new 16).decode
      ([255, 250, 34, 253, 2] ++ List.replicate 15 0 ++ [123, 255, 240]) =
    .ret (TelnetCodec.new 16, [],
      some (.Subnegotiate (.LineMode (.ForwardMask
        (.Do (List.replicate 15 0 ++ [123])))))) := by simp <;> decide

-- test_message encoding
example : encode_message [104, 105] [] = [104, 105, 13, 10] := by simp <;> decide

-- test_do encoding
example : TelnetCodec.encode (.Do .Echo) [] = .ret [255, 253, 1] := by simp <;> decide

-- test_sb_naws encoding
example : TelnetCodec.encode (.Subnegotiate (.WindowSize 80 80)) [] =
    .ret [255, 250, 31, 0, 80, 0, 80, 255, 240] := by simp <;> decide

-- test_sb_linemode_fmask_encode: empty mask padded to 16 zero bytes
example : TelnetCodec.encode
      (.Subnegotiate (.LineMode (.ForwardMask (.Do [])))) [] =
    .ret ([255, 250, 34, 253, 2] ++ List.replicate 16 0 ++ [255, 240]) := by simp <;> decide

-- test_decode_env_name_unescaped_chars_only
example : decode_env_name [97, 98, 99, 120, 121, 122] =
    some ([97, 98, 99, 120, 121, 122], 6) := by simp <;> decide

-- test_decode_env_name_esc_sequences
example : decode_env_name [2, 0, 2, 3, 2, 1, 2, 2, 255, 255] =
    some ([0, 3, 1, 2, 255], 10) := by simp <;> decide

-- test_decode_env_name_non_escaped_special_chars
example : decode_env_name [0, 3, 1] = some ([], 0) := by simp <;> decide

-- test_decode_env_name_invalid_data / _invalid_esc_seq
example : decode_env_name [2] = none := by simp <;> decide
example : decode_env_name [2, 99] = none := by simp <;> decide

-- test_decode_env_value_empty_input
example : decode_env_value [] = some ([], 0) := by simp <;> decide

-- test_decode_env_uservar: decode_env_var on "USER\x01test\x03HOME..."
example :
    decode_env_var
      ([85, 83, 69, 82, 1, 116, 101, 115, 116, 3, 72, 79, 77, 69, 3] ++
       [68, 73, 83, 80, 76, 65, 89, 1, 58, 48, 46, 48]) =
    some ([85, 83, 69, 82], some [116, 101, 115, 116], 9) := by simp <;> decide

/-! ## Claim C1: byte chunk invariance -/

/-- C1 counterexample: chunk invariance fails. Feeding the wire bytes
`"a\r\n"` as the two chunks `["a"]`, `["\r\n"]` yields different events than
feeding them at once: the chunked run emits `Message "aa"` because the call
that returned `None` left the scanned byte `'a'` in the transport buffer
while also appending it to the accumulator, so the next call appended it a
second time. -/
theorem C1_counterexample :
    (feedChunks 4 (TelnetCodec.new 16) [] [[97], [13, 10]]).2.2 ≠
      (decodeDrain 4 (TelnetCodec.new 16) ([97] ++ [13, 10])).2.2 := by
  simp

/-- C1 (amended): decoding the whole sequence `"a\r\n"` at once yields
`Message "a"`, but the partition `["a"], ["\r\n"]` yields `Message "aa"`:
a `decode` call that returns `None` leaves already-scanned data bytes in
the transport buffer while retaining them in the accumulator, so the next
call appends them again and chunk invariance fails. -/
theorem C1_amended :
    (decodeDrain 4 (TelnetCodec.new 16) [97, 13, 10]).2.2 =
      [TelnetEvent.Message [97]] ∧
    (feedChunks 4 (TelnetCodec.new 16) [] [[97], [13, 10]]).2.2 =
      [TelnetEvent.Message [97, 97]] ∧
    (TelnetCodec.new 16).decode [97] =
      .ret (⟨false, 16, [97], true⟩, [97], none) := by
  refine ⟨by simp, by simp, by simp⟩

/-! ## Claim C2: IAC escaping in messages -/

/-- C2 counterexample: encoding the one-byte message `[IAC]` does not put
exactly two `IAC` bytes on the wire — the encoder writes three (the
conditional `extend([IAC, IAC])` plus the unconditional `put_u8`). -/
theorem C2_counterexample :
    ¬ (encode_message [255] []).count 255 = 2 := by
  decide

/-- C2 (amended): `encode_message` writes each `IAC` payload byte three
times and then appends `\r\n`; decoding that output does not reconstruct
the original byte but the UTF-8 replacement character (the accumulator
holds the lone byte 255, which `from_utf8_lossy` replaces). -/
theorem C2_amended :
    encode_message [255] [] = [255, 255, 255, 13, 10] ∧
    (TelnetCodec.new 16).decode [255, 255, 255, 13, 10] =
      .ret (TelnetCodec.new 16, [], some (.Message utf8Replacement)) := by
  refine ⟨by decide, by simp⟩

/-! ## Claim C3: truncated frames leave the transport unchanged -/

/-- C3 counterexample: a transport buffer holding exactly `IAC SB` (a
truncated subnegotiation whose option byte is missing) is not left
untouched: `decode` returns no event but consumes both bytes
(`buffer.advance(byte_index + 2)`). -/
theorem C3_counterexample :
    (TelnetCodec.new 16).decode [255, 250] =
      .ret (TelnetCodec.new 16, [], none) ∧
    ([] : List Nat) ≠ [255, 250] := by
  refine ⟨by simp, by decide⟩

/-- C3 (amended): in line mode, a lone `IAC` and a negotiation verb whose
option byte is missing are left in the transport buffer with `None`
returned, but a buffer whose remaining bytes are exactly `IAC SB` is
consumed entirely (still returning `None`). -/
theorem C3_amended (c : TelnetCodec) (h : c.sga = false) :
    c.decode [255] = .ret (c, [255], none) ∧
    c.decode [255, 253] = .ret (c, [255, 253], none) ∧
    c.decode [255, 250] = .ret (c, [], none) := by
  obtain ⟨sga, maxLen, buf, mm⟩ := c
  simp only [TelnetCodec.sga] at h
  subst h
  refine ⟨?_, ?_, ?_⟩ <;> simp

/-- C3 witness: the amended statement instantiated at a fresh codec. -/
theorem C3_amended_witness :
    (TelnetCodec.new 16).sga = false ∧
    ((TelnetCodec.new 16).decode [255] =
        .ret (TelnetCodec.new 16, [255], none) ∧
      (TelnetCodec.new 16).decode [255, 253] =
        .ret (TelnetCodec.new 16, [255, 253], none) ∧
      (TelnetCodec.new 16).decode [255, 250] =
        .ret (TelnetCodec.new 16, [], none)) :=
  ⟨rfl, C3_amended (TelnetCodec.new 16) rfl⟩

/-! ## Claim C4: decode panics on short LINEMODE payloads -/

/-- C4: decoding the complete frame `IAC SB LINEMODE MODE IAC SE` (payload
`[MODE]`) panics in `decode_linemode` at `subvec[1]`, and the frame
`IAC SB LINEMODE DO IAC SE` (payload `[DO]`) panics at `&subvec[2..]`,
contradicting the claim that decode never panics. -/
theorem C4_panic_evaluation :
    (TelnetCodec.new 16).decode [255, 250, 34, 1, 255, 240] =
      .panicked ∧
    (TelnetCodec.new 16).decode [255, 250, 34, 253, 255, 240] =
      .panicked := by
  refine ⟨by simp, by simp⟩

/-! ## Claim C5: accumulator cap scenario -/

/-- C5 counterexample: with `max_buffer_length = 16`, feeding 20 `'a'`
bytes followed by `\r\n` does not emit the 16-byte message the claim
requires — repeated decoding emits no event at all. -/
theorem C5_counterexample :
    (decodeDrain 3 (TelnetCodec.new 16)
        (List.replicate 20 97 ++ [13, 10])).2.2 ≠
      [TelnetEvent.Message (List.replicate 16 97)] := by
  simp

/-- C5 (amended): with `max_buffer_length = 16`, feeding 20 `'a'` bytes
followed by `\r\n` yields no event: the cap drops the 4 excess `'a'` bytes
and the `\r` itself, so the `\n` does not terminate a line; the `\n` arm
then discards the 16 retained bytes (`mem::take`) and drops the `\n`
(cap reached), leaving an empty accumulator, an unconsumed transport
buffer and no `Message`. -/
theorem C5_amended :
    (TelnetCodec.new 16).decode (List.replicate 20 97 ++ [13, 10]) =
      .ret (TelnetCodec.new 16, List.replicate 20 97 ++ [13, 10], none) := by
  simp

/-! ## Claim C7: negotiation length model -/

/-- C7 counterexample: `TelnetEvent::len` of a negotiation event is not 3. -/
theorem C7_counterexample :
    ¬ TelnetEvent.len (.Do .Echo) = 3 := by
  decide

/-- C7 (amended): for every option, `TelnetEvent::len` returns 6 for the
four negotiation events, while the encoder appends exactly the 3 bytes
`IAC verb option`; the exposed length does not match the encoder's output
byte count. -/
theorem C7_amended (o : TelnetOption) :
    TelnetEvent.len (.Do o) = 6 ∧ TelnetEvent.len (.Dont o) = 6 ∧
    TelnetEvent.len (.Will o) = 6 ∧ TelnetEvent.len (.Wont o) = 6 ∧
    encode_negotiate DO o [] = .ret [255, 253, o.toU8] ∧
    encode_negotiate DONT o [] = .ret [255, 254, o.toU8] ∧
    encode_negotiate WILL o [] = .ret [255, 251, o.toU8] ∧
    encode_negotiate WONT o [] = .ret [255, 252, o.toU8] ∧
    [255, 253, o.toU8].length = 3 :=
  ⟨rfl, rfl, rfl, rfl, rfl, rfl, rfl, rfl, rfl⟩

/-! ## Claim C10: a bare newline loses the accumulator -/

/-- C10: in line mode, a `\n` whose accumulator does not end with `\r` is
not treated as an ordinary appended byte. Feeding `"a\n"` to a fresh codec
leaves the accumulator holding only `[10]`: the previously accumulated
`'a'` is discarded by the unrestored `mem::take`, contradicting the claim
that every previously held byte remains. -/
theorem C10_evaluation :
    (TelnetCodec.new 16).decode [97, 10] =
      .ret (⟨false, 16, [10], true⟩, [97, 10], none) ∧
    ([10] : List Nat) ≠ [97, 10] := by
  refine ⟨by simp, by decide⟩

/-! ## Claim C8: NEW-ENVIRON escape law -/

/-- Model of `encode_bytes` on the empty sequence. -/
theorem encode_bytes_nil : encode_bytes [] = [] := rfl

/-- One step of `encode_bytes`: the escape group of the head byte followed
by the encoding of the tail. -/
theorem encode_bytes_cons (b : Nat) (s : List Nat) :
    encode_bytes (b :: s) =
      (if b = ENV_ESC ∨ b = ENV_VAR ∨ b = ENV_VALUE ∨ b = ENV_USERVAR then
        [ENV_ESC, b]
      else if b = IAC then [IAC, IAC] else [b]) ++ encode_bytes s := rfl

/-- The name decoder undoes `encode_bytes` from any starting state: each
encoded byte group (escape pair, doubled IAC, or plain byte) is consumed
back into one original byte. -/
theorem decode_env_name_loop_encode_bytes (s : List Nat) :
    ∀ (buf : List Nat) (i : Nat),
      decode_env_name_loop (encode_bytes s) .unescaped buf i =
        some (buf ++ s, i + (encode_bytes s).length) := by
  induction s with
  | nil => intro buf i; simp [encode_bytes_nil]
  | cons b s ih =>
    intro buf i
    by_cases hb2 : b = 2
    · subst hb2
      rw [show encode_bytes (2 :: s) = 2 :: 2 :: encode_bytes s from rfl]
      generalize encode_bytes s = E at ih ⊢
      simp [ih]
      omega
    · by_cases hb0 : b = 0
      · subst hb0
        rw [show encode_bytes (0 :: s) = 2 :: 0 :: encode_bytes s from rfl]
        generalize encode_bytes s = E at ih ⊢
        simp [ih]
        omega
      · by_cases hb1 : b = 1
        · subst hb1
          rw [show encode_bytes (1 :: s) = 2 :: 1 :: encode_bytes s from rfl]
          generalize encode_bytes s = E at ih ⊢
          simp [ih]
          omega
        · by_cases hb3 : b = 3
          · subst hb3
            rw [show encode_bytes (3 :: s) = 2 :: 3 :: encode_bytes s from rfl]
            generalize encode_bytes s = E at ih ⊢
            simp [ih]
            omega
          · by_cases hbI : b = 255
            · subst hbI
              rw [show encode_bytes (255 :: s) = 255 :: 255 :: encode_bytes s from rfl]
              generalize encode_bytes s = E at ih ⊢
              simp [ih]
              omega
            · have hcons : encode_bytes (b :: s) = b :: encode_bytes s := by
                rw [encode_bytes_cons, if_neg (by simp [hb2, hb0, hb1, hb3]),
                  if_neg (by simpa [IAC] using hbI)]
                simp
              rw [hcons]
              generalize encode_bytes s = E at ih ⊢
              simp [ih, hb2, hb0, hb1, hb3, hbI]
              omega

/-- C8 counterexample: the escape law fails for the empty byte sequence —
`encode_bytes []` is empty and `decode_env_name` rejects empty input with
`None` instead of returning `([], 0)`. -/
theorem C8_counterexample :
    decode_env_name (encode_bytes []) = none ∧
    (none : Option (List Nat × Nat)) ≠
      some (([] : List Nat), (encode_bytes ([] : List Nat)).length) := by
  refine ⟨rfl, by decide⟩

/-- C8 (amended): for every non-empty byte sequence `s`,
`decode_env_name (encode_bytes s)` returns `(s, encode_bytes(s).len())` —
the NEW-ENVIRON escaping round-trips and the whole escaped input is
consumed. (For `s = []` the decoder returns `None` instead.) -/
theorem C8_amended (s : List Nat) (h : s ≠ []) :
    decode_env_name (encode_bytes s) = some (s, (encode_bytes s).length) := by
  have hne : encode_bytes s ≠ [] := by
    obtain ⟨b, s', rfl⟩ := List.exists_cons_of_ne_nil h
    rw [encode_bytes_cons]
    by_cases hb2 : b = 2 <;> by_cases hb0 : b = 0 <;> by_cases hb1 : b = 1 <;>
      by_cases hb3 : b = 3 <;> by_cases hbI : b = 255 <;>
      simp [hb2, hb0, hb1, hb3, hbI]
  rw [decode_env_name, if_neg hne]
  have := decode_env_name_loop_encode_bytes s [] 0
  simpa using this

/-- C8 witness: the amended escape law at the concrete sequence
`[ESC, IAC, 'A']`, which exercises an escape pair, a doubled IAC and a
plain byte. -/
theorem C8_amended_witness :
    ([2, 255, 65] : List Nat) ≠ [] ∧
    decode_env_name (encode_bytes [2, 255, 65]) =
      some ([2, 255, 65], (encode_bytes [2, 255, 65]).length) :=
  ⟨by decide, C8_amended [2, 255, 65] (by decide)⟩

/-! ## Claim C9: inverted SEND tag mapping -/

/-- ASCII byte sequences are valid UTF-8. -/
theorem validUtf8_ascii (l : List Nat) (h : ∀ b ∈ l, b ≤ 127) :
    validUtf8 l = true := by
  induction l with
  | nil => simp
  | cons b l ih =>
    have hb : b ≤ 127 := h b (List.mem_cons_self b l)
    have hl : ∀ x ∈ l, x ≤ 127 := fun x hx => h x (List.mem_cons_of_mem b hx)
    rw [validUtf8.eq_def]
    simp [hb, ih hl]

/-- On bytes that are neither NEW-ENVIRON tags, the escape byte, nor IAC,
the name decoder copies its input verbatim. -/
theorem decode_env_name_loop_plain (l : List Nat)
    (h : ∀ b ∈ l, 4 ≤ b ∧ b ≤ 127) :
    ∀ (buf : List Nat) (i : Nat),
      decode_env_name_loop l .unescaped buf i = some (buf ++ l, i + l.length) := by
  induction l with
  | nil => intro buf i; simp
  | cons b l ih =>
    intro buf i
    have hb := h b (List.mem_cons_self b l)
    have hl : ∀ x ∈ l, 4 ≤ x ∧ x ≤ 127 := fun x hx => h x (List.mem_cons_of_mem b hx)
    have h2 : ¬ b = 2 := by omega
    have h0 : ¬ b = 0 := by omega
    have h1 : ¬ b = 1 := by omega
    have h3 : ¬ b = 3 := by omega
    have hI : ¬ b = 255 := by omega
    rw [decode_env_name_loop.eq_def]
    simp only [ENV_ESC, ENV_VALUE, ENV_USERVAR, ENV_VAR, IAC, h2, h0, h1, h3, hI,
      if_false, ite_false, if_neg (by omega : ¬ (b = 1 ∨ b = 3 ∨ b = 0))]
    rw [ih hl]
    simp
    omega

/-- A plain non-empty name with no value after it decodes to itself. -/
theorem decode_env_var_plain (name : List Nat) (h1 : name ≠ [])
    (h2 : ∀ b ∈ name, 4 ≤ b ∧ b ≤ 127) :
    decode_env_var name = some (name, none, name.length) := by
  have hname : decode_env_name name = some (name, name.length) := by
    rw [decode_env_name, if_neg h1]
    simpa using decode_env_name_loop_plain name h2 [] 0
  have hval : validUtf8 name = true :=
    validUtf8_ascii name (fun b hb => (h2 b hb).2)
  rw [decode_env_var, hname]
  simp [h1, hval]

/-- C9: the NEW-ENVIRON SEND tag mapping is inverted relative to IS/INFO.
For every plain ASCII name, `decode_env_send_var` maps a VAR (0) tag to
`EnvironmentKind::UserDefined` and a USERVAR (3) tag to
`EnvironmentKind::WellKnown`, while `decode_env_is` (used for IS and INFO
payloads) maps a VAR tag to `WellKnown` and a USERVAR tag to
`UserDefined`. -/
theorem C9_send_mapping_inverted (name : List Nat) (h1 : name ≠ [])
    (h2 : ∀ b ∈ name, 4 ≤ b ∧ b ≤ 127) :
    decode_env_send_var ENV_VAR name =
      some (.UserDefined (some name)) ∧
    decode_env_send_var ENV_USERVAR name =
      some (.WellKnown (some (WellKnownVariable.fromBytes name))) ∧
    decode_env_is (ENV_VAR :: name) =
      some [(.WellKnown (some (WellKnownVariable.fromBytes name)), none)] ∧
    decode_env_is (ENV_USERVAR :: name) =
      some [(.UserDefined (some name), none)] := by
  have hval : validUtf8 name = true :=
    validUtf8_ascii name (fun b hb => (h2 b hb).2)
  have hvar := decode_env_var_plain name h1 h2
  refine ⟨?_, ?_, ?_, ?_⟩
  · simp [decode_env_send_var, h1, hval]
  · simp [decode_env_send_var, h1, hval]
  · show decode_env_is (0 :: name) = _
    rw [decode_env_is, if_neg (by simp)]
    unfold decode_env_is_loop
    rw [dif_pos (by simp)]
    simp only [List.getD_cons_zero, ENV_USERVAR, ENV_VAR, List.drop_succ_cons,
      List.drop_zero, hvar]
    norm_num
    unfold decode_env_is_loop
    rw [dif_neg (by simp)]
  · show decode_env_is (3 :: name) = _
    rw [decode_env_is, if_neg (by simp)]
    unfold decode_env_is_loop
    rw [dif_pos (by simp)]
    simp only [List.getD_cons_zero, ENV_USERVAR, ENV_VAR, List.drop_succ_cons,
      List.drop_zero, hvar]
    norm_num
    unfold decode_env_is_loop
    rw [dif_neg (by simp)]

/-- C9 witness: the inverted mapping at the concrete name `"HOME"`. -/
theorem C9_witness :
    (([72, 79, 77, 69] : List Nat) ≠ [] ∧
      ∀ b ∈ ([72, 79, 77, 69] : List Nat), 4 ≤ b ∧ b ≤ 127) ∧
    (decode_env_send_var ENV_VAR [72, 79, 77, 69] =
        some (.UserDefined (some [72, 79, 77, 69])) ∧
      decode_env_send_var ENV_USERVAR [72, 79, 77, 69] =
        some (.WellKnown (some (WellKnownVariable.fromBytes [72, 79, 77, 69]))) ∧
      decode_env_is (ENV_VAR :: [72, 79, 77, 69]) =
        some [(.WellKnown (some (WellKnownVariable.fromBytes [72, 79, 77, 69])), none)] ∧
      decode_env_is (ENV_USERVAR :: [72, 79, 77, 69]) =
        some [(.UserDefined (some [72, 79, 77, 69]), none)]) :=
  ⟨⟨by decide, by decide⟩,
    C9_send_mapping_inverted [72, 79, 77, 69] (by decide) (by decide)⟩

/-! ## Claim C6: the accumulator never exceeds `max_buffer_length` -/

/-- Model of `decode_subnegotiation_end` returns the accumulator unchanged. -/
theorem decode_subnegotiation_end_accum (invalid : Bool)
    (buffer subvec : List Nat) (option : Nat) (cb : List Nat)
    (r : List Nat × List Nat × Option TelnetEvent)
    (h : decode_subnegotiation_end invalid buffer subvec option cb = .ret r) :
    r.1 = cb := by
  unfold decode_subnegotiation_end at h
  split at h
  · obtain rfl := Outcome.ret.inj h
    rfl
  · split at h
    · exact Outcome.noConfusion h
    · obtain rfl := Outcome.ret.inj h
      rfl
    · obtain rfl := Outcome.ret.inj h
      rfl

/-- The subnegotiation loop returns the accumulator unchanged. -/
theorem decode_sb_loop_accum (buffer : List Nat) (start opt : Nat) :
    ∀ (n : Nat) (rest : List Nat), rest.length ≤ n →
    ∀ (byteIndex : Nat) (subvec : List Nat) (invalid : Bool) (cb : List Nat)
      (r : List Nat × List Nat × Option TelnetEvent),
      decode_sb_loop buffer start opt byteIndex rest subvec invalid cb =
        .ret r →
      r.1 = cb := by
  intro n
  induction n with
  | zero =>
    intro rest hlen byteIndex subvec invalid cb r h
    obtain rfl : rest = [] := List.eq_nil_of_length_eq_zero (Nat.le_zero.mp hlen)
    rw [decode_sb_loop.eq_def] at h
    dsimp only at h
    split at h
    · obtain rfl := Outcome.ret.inj h
      rfl
    · exact Outcome.noConfusion h
  | succ n ih =>
    intro rest hlen byteIndex subvec invalid cb r h
    cases rest with
    | nil =>
      rw [decode_sb_loop.eq_def] at h
      dsimp only at h
      split at h
      · obtain rfl := Outcome.ret.inj h
        rfl
      · exact Outcome.noConfusion h
    | cons b rest' =>
      rw [decode_sb_loop.eq_def] at h
      dsimp only at h
      simp only [List.length_cons] at hlen
      split at h
      · -- b = IAC
        split at h
        · -- rest' = []
          split at h
          · obtain rfl := Outcome.ret.inj h
            rfl
          · exact Outcome.noConfusion h
        · -- rest' = b2 :: rest2
          rename_i b2 rest2
          split at h
          · exact decode_subnegotiation_end_accum _ _ _ _ _ _ h
          · split at h
            · exact ih rest2 (by subst_vars; simp_all <;> omega) _ _ _ _ _ h
            · exact ih rest2 (by subst_vars; simp_all <;> omega) _ _ _ _ _ h
      · -- data byte
        exact ih rest' (by omega) _ _ _ _ _ h

/-- Through every branch of the scanning loop the accumulator length stays
below the cap: the running size `size` dominates the accumulator length, a
push in `decode_next_byte` requires `size < maxLen`, and a push in the
doubled-IAC arm requires the length itself to be below `maxLen`. -/
theorem decode_bytes_accum (mm : Bool) (maxLen : Nat) (buffer : List Nat) :
    ∀ (n : Nat) (rest : List Nat), rest.length ≤ n →
    ∀ (byteIndex : Nat) (cb : List Nat) (size : Nat),
      cb.length ≤ maxLen → cb.length ≤ size →
      ∀ (r : List Nat × List Nat × Option TelnetEvent),
        decode_bytes mm maxLen buffer byteIndex rest cb size = .ret r →
        r.1.length ≤ maxLen := by
  intro n
  induction n with
  | zero =>
    intro rest hlen byteIndex cb size hmax hsize r h
    obtain rfl : rest = [] := List.eq_nil_of_length_eq_zero (Nat.le_zero.mp hlen)
    rw [decode_bytes.eq_def] at h
    dsimp only at h
    obtain rfl := Outcome.ret.inj h
    exact hmax
  | succ n ih =>
    intro rest hlen byteIndex cb size hmax hsize r h
    cases rest with
    | nil =>
      rw [decode_bytes.eq_def] at h
      dsimp only at h
      obtain rfl := Outcome.ret.inj h
      exact hmax
    | cons b rest' =>
      rw [decode_bytes.eq_def] at h
      dsimp only at h
      simp only [List.length_cons] at hlen
      split at h
      · -- b = IAC
        split at h
        · -- rest' = []
          obtain rfl := Outcome.ret.inj h
          exact hmax
        · -- rest' = b2 :: rest2
          rename_i b2 rest2
          split at h
          · -- doubled IAC
            split at h
            · -- push: cb.length < maxLen
              rename_i hpush
              refine ih rest2 (by subst_vars; simp_all <;> omega) _ _ _ ?_ ?_ _ h
              · simpa using hpush
              · simp
                omega
            · exact ih rest2 (by subst_vars; simp_all <;> omega) _ _ _ hmax hsize _ h
          · split at h
            · -- negotiation verb
              obtain rfl := Outcome.ret.inj h
              exact hmax
            · split at h
              · -- SB
                split at h
                · -- truncated: option byte missing
                  obtain rfl := Outcome.ret.inj h
                  exact hmax
                · -- subnegotiation loop
                  rename_i opt rest3
                  have hacc := decode_sb_loop_accum buffer byteIndex opt
                    rest3.length rest3 le_rfl _ _ _ _ _ h
                  rw [hacc]
                  exact hmax
              · split at h
                · -- NOP
                  exact ih rest2 (by subst_vars; simp_all <;> omega) _ _ _ hmax hsize _ h
                · -- IAC followed by an unrecognized byte
                  exact ih (b2 :: rest2) (by subst_vars; simp_all <;> omega) _ _ _
                    hmax hsize _ h
      · -- b is not IAC
        split at h
        · -- b = 10
          split at h
          · -- the accumulator ends with CR: flush, accumulator cleared
            obtain rfl := Outcome.ret.inj h
            simp
          · -- bare newline: the take empties the accumulator
            split at h
            · rename_i hpush
              refine ih rest' (by omega) _ _ _ ?_ ?_ _ h
              · simp
                omega
              · simp
            · exact ih rest' (by omega) _ _ _ (by simp) (by simp) _ h
        · split at h
          · -- character mode: accumulator emptied
            obtain rfl := Outcome.ret.inj h
            simp
          · -- ordinary data byte
            split at h
            · rename_i hpush
              refine ih rest' (by omega) _ _ _ ?_ ?_ _ h
              · simp
                omega
              · simp
                omega
            · exact ih rest' (by omega) _ _ _ hmax hsize _ h

/-- One `decode` call keeps the accumulator within the cap and does not
change the cap. -/
theorem decode_preserves_cap (c : TelnetCodec) (input : List Nat)
    (h : c.buffer.length ≤ c.max_buffer_length)
    (r : TelnetCodec × List Nat × Option TelnetEvent)
    (hr : c.decode input = .ret r) :
    r.1.buffer.length ≤ r.1.max_buffer_length ∧
      r.1.max_buffer_length = c.max_buffer_length := by
  unfold TelnetCodec.decode at hr
  split at hr
  · obtain rfl := Outcome.ret.inj hr
    simp
  · split at hr
    · obtain rfl := Outcome.ret.inj hr
      exact ⟨h, rfl⟩
    · split at hr
      · obtain rfl := Outcome.ret.inj hr
        exact ⟨h, rfl⟩
      · split at hr
        · exact Outcome.noConfusion hr
        · rename_i cb buffer' event heq
          obtain rfl := Outcome.ret.inj hr
          refine ⟨?_, rfl⟩
          exact decode_bytes_accum c.message_mode c.max_buffer_length input
            input.length input le_rfl 0 c.buffer c.buffer.length h le_rfl
            _ heq

/-- C6: for every codec created by `new(max_buffer_length)` and every
sequence of `decode` and `encode` calls with arbitrary inputs, the
accumulator's length stays at most `max_buffer_length` — the bound holds
in every reachable state (quantifying over all call sequences covers every
intermediate moment). -/
theorem C6_accumulator_bounded (max : Nat) (calls : List CodecCall) :
    (runCalls (TelnetCodec.new max) calls).buffer.length ≤ max := by
  suffices h : ∀ (calls : List CodecCall) (c : TelnetCodec),
      c.buffer.length ≤ c.max_buffer_length →
      (runCalls c calls).buffer.length ≤ (runCalls c calls).max_buffer_length ∧
        (runCalls c calls).max_buffer_length = c.max_buffer_length by
    have h2 := h calls (TelnetCodec.new max) (by simp)
    have h3 : (TelnetCodec.new max).max_buffer_length = max := rfl
    omega
  intro calls
  induction calls with
  | nil =>
    intro c hc
    simp only [runCalls]
    exact ⟨hc, trivial⟩
  | cons call calls ih =>
    intro c hc
    cases call with
    | decodeCall input =>
      simp only [runCalls]
      split
      · exact ih c hc
      · rename_i c2 b2 e2 heq
        obtain ⟨h1, h2⟩ := decode_preserves_cap c input hc (c2, b2, e2) heq
        have h1a : c2.buffer.length ≤ c2.max_buffer_length := h1
        have h2a : c2.max_buffer_length = c.max_buffer_length := h2
        obtain ⟨h3, h4⟩ := ih c2 h1a
        exact ⟨h3, by omega⟩
    | encodeCall e out =>
      simp only [runCalls]
      exact ih c hc

end Nectar
